import Mathlib

/-!
Shallow embedding of the bonsai-local coordination core:
the in-memory content store (`state.rs`), the prover worker and its
bounded task queue (`prover.rs`), the server-URL resolver
(`url_resolver.rs`) and the relevant HTTP handlers (`routes.rs`).

Time is modelled by an explicit `Nat` instant passed to every operation
that reads the clock (`Instant::now()` / `elapsed()`); byte strings are
`List Nat`; maps are functions `String → Option _`.
-/

namespace Bonsai

/-- Byte sequences (`Vec<u8>`). -/
abbrev Bytes := List Nat

/-- Character sequences for header/URL parsing (`&str` contents). -/
abbrev Str := List Char

/-- Rust `risc0_zkvm::SessionStats` as the core uses it. -/
structure SessionStats where
  segments : Nat
  total_cycles : Nat
  user_cycles : Nat
deriving DecidableEq, Repr

/-- Rust `SessionStatus` from `state.rs`. -/
inductive SessionStatus where
  | Running
  | Succeeded
  | Failed
deriving DecidableEq, Repr

/-- The `ToString` impl for `SessionStatus` in `state.rs`. -/
def SessionStatus.to_string : SessionStatus → String
  | .Running => "RUNNING"
  | .Succeeded => "SUCCEEDED"
  | .Failed => "FAILED"

/-- Rust `EntryWithTimestamp<T>` from `state.rs`: a value with its insertion instant. -/
structure EntryWithTimestamp (T : Type) where
  data : T
  created_at : Nat
deriving DecidableEq, Repr

/-- Rust `EntryWithTimestamp::new`, with the clock passed explicitly. -/
def EntryWithTimestamp.new {T : Type} (now : Nat) (data : T) : EntryWithTimestamp T :=
  ⟨data, now⟩

/-- Rust `EntryWithTimestamp::is_expired`: `created_at.elapsed() > ttl`,
with `elapsed()` at instant `now` being `now - created_at`. -/
def EntryWithTimestamp.is_expired {T : Type} (e : EntryWithTimestamp T)
    (now ttl : Nat) : Bool :=
  decide (now - e.created_at > ttl)

/-- One of the four `HashMap<String, EntryWithTimestamp<_>>` collections. -/
def StoreMap (α : Type) : Type := String → Option (EntryWithTimestamp α)

/-- Rust `HashMap::new`. -/
def StoreMap.empty {α : Type} : StoreMap α := fun _ => none

/-- Rust `HashMap::get`. -/
def StoreMap.get {α : Type} (m : StoreMap α) (k : String) :
    Option (EntryWithTimestamp α) := m k

/-- Rust `HashMap::insert`: returns the previous entry and the updated map. -/
def StoreMap.insert {α : Type} (m : StoreMap α) (k : String)
    (e : EntryWithTimestamp α) : Option (EntryWithTimestamp α) × StoreMap α :=
  (m k, fun k2 => if k2 = k then some e else m k2)

/-- Rust `HashMap::retain`. -/
def StoreMap.retain {α : Type} (m : StoreMap α)
    (p : EntryWithTimestamp α → Bool) : StoreMap α :=
  fun k => (m k).filter p

/-- Rust `BonsaiState` from `state.rs`. -/
structure BonsaiState where
  url : String
  ttl : Nat
  images : StoreMap Bytes
  inputs : StoreMap Bytes
  sessions : StoreMap (SessionStatus × Option SessionStats)
  receipts : StoreMap Bytes

/-- Rust `BonsaiState::new`. -/
def BonsaiState.new (url : String) (ttl : Nat) : BonsaiState :=
  ⟨url, ttl, StoreMap.empty, StoreMap.empty, StoreMap.empty, StoreMap.empty⟩

/-- Rust `BonsaiState::put_image`; returns the previous bytes if any. -/
def BonsaiState.put_image (s : BonsaiState) (now : Nat) (image_id : String)
    (image : Bytes) : Option Bytes × BonsaiState :=
  let r := s.images.insert image_id (EntryWithTimestamp.new now image)
  (r.1.map (·.data), { s with images := r.2 })

/-- Rust `BonsaiState::get_image`. -/
def BonsaiState.get_image (s : BonsaiState) (image_id : String) : Option Bytes :=
  (s.images.get image_id).map (·.data)

/-- Rust `BonsaiState::put_input`. -/
def BonsaiState.put_input (s : BonsaiState) (now : Nat) (input_id : String)
    (input : Bytes) : Option Bytes × BonsaiState :=
  let r := s.inputs.insert input_id (EntryWithTimestamp.new now input)
  (r.1.map (·.data), { s with inputs := r.2 })

/-- Rust `BonsaiState::get_input`. -/
def BonsaiState.get_input (s : BonsaiState) (input_id : String) : Option Bytes :=
  (s.inputs.get input_id).map (·.data)

/-- Rust `BonsaiState::put_session`. -/
def BonsaiState.put_session (s : BonsaiState) (now : Nat) (session_id : String)
    (status : SessionStatus) (stats : Option SessionStats) :
    Option (SessionStatus × Option SessionStats) × BonsaiState :=
  let r := s.sessions.insert session_id (EntryWithTimestamp.new now (status, stats))
  (r.1.map (·.data), { s with sessions := r.2 })

/-- Rust `BonsaiState::get_session`. -/
def BonsaiState.get_session (s : BonsaiState) (session_id : String) :
    Option (SessionStatus × Option SessionStats) :=
  (s.sessions.get session_id).map (·.data)

/-- Rust `BonsaiState::put_receipt`. -/
def BonsaiState.put_receipt (s : BonsaiState) (now : Nat) (session_id : String)
    (receipt : Bytes) : Option Bytes × BonsaiState :=
  let r := s.receipts.insert session_id (EntryWithTimestamp.new now receipt)
  (r.1.map (·.data), { s with receipts := r.2 })

/-- Rust `BonsaiState::get_receipt`. -/
def BonsaiState.get_receipt (s : BonsaiState) (session_id : String) : Option Bytes :=
  (s.receipts.get session_id).map (·.data)

/-- Rust `BonsaiState::cleanup_expired`, at instant `now`: each collection
retains exactly the entries that are not expired. -/
def BonsaiState.cleanup_expired (s : BonsaiState) (now : Nat) : BonsaiState :=
  { s with
    images := s.images.retain (fun e => ! e.is_expired now s.ttl)
    inputs := s.inputs.retain (fun e => ! e.is_expired now s.ttl)
    sessions := s.sessions.retain (fun e => ! e.is_expired now s.ttl)
    receipts := s.receipts.retain (fun e => ! e.is_expired now s.ttl) }

/-! ## Worker (`prover.rs`) -/

/-- Rust `Task` from `prover.rs`. -/
structure Task where
  session_id : String
  image_id : String
  input_id : String
  assumptions : List String
deriving DecidableEq, Repr

/-- The error type of the core (`error.rs` variants the claims touch). -/
inductive Error where
  | Unspecified
  | ProverQueueFull
  | ServerUrlResolution
deriving DecidableEq, Repr

/-- An opaque deserialized `risc0_zkvm::Receipt`. -/
abbrev ReceiptVal := Nat

/-- Rust `ProveInfo`: the external engine's result (receipt plus statistics). -/
structure ProveInfo where
  receipt : ReceiptVal
  stats : SessionStats
deriving DecidableEq, Repr

/-- The external collaborators the worker calls, taken as oracles:
the `bincode` receipt codec, the executor-environment builder and the
prover engine (all out of scope for the core, per the spec). -/
structure ProverEnv where
  deserialize : Bytes → Option ReceiptVal
  serialize : ReceiptVal → Option Bytes
  build_ok : Bytes → List ReceiptVal → Bool
  prove : Bytes → Bytes → List ReceiptVal → Option ProveInfo

/-- One atomic store mutation performed by the worker, each one under its
own exclusive-lock acquisition (`self.storage.write()?` in `prover.rs`). -/
inductive StoreOp where
  | putReceiptOp (session_id : String) (receipt : Bytes)
  | putSessionOp (session_id : String) (status : SessionStatus)
      (stats : Option SessionStats)
deriving DecidableEq, Repr

/-- Apply one atomic worker write at instant `now`. -/
def applyOp (now : Nat) (s : BonsaiState) : StoreOp → BonsaiState
  | .putReceiptOp id v => (s.put_receipt now id v).2
  | .putSessionOp id st stats => (s.put_session now id st stats).2

/-- Apply a sequence of worker writes. -/
def applyOps (now : Nat) (s : BonsaiState) : List StoreOp → BonsaiState
  | [] => s
  | op :: rest => applyOps now (applyOp now s op) rest

/-- The observable store states along a sequence of worker writes: the
state before any write and the state after each one (each write is a
separate lock acquisition, so each of these states is visible to
concurrent readers). -/
def traceStates (now : Nat) (s : BonsaiState) : List StoreOp → List BonsaiState
  | [] => [s]
  | op :: rest => s :: traceStates now (applyOp now s op) rest

/-- Rust `Prover::get_receipts`: resolve every assumption receipt ID, failing
on the first missing one. -/
def getReceipts (s : BonsaiState) : List String → Except Unit (List Bytes)
  | [] => .ok []
  | id :: rest =>
    match s.get_receipt id with
    | none => .error ()
    | some r =>
      match getReceipts s rest with
      | .error _ => .error ()
      | .ok rs => .ok (r :: rs)

/-- The assumption loop in `Prover::handle_message`: skip empty receipt
byte strings, deserialize the rest, failing on the first codec error. -/
def deserAssumptions (env : ProverEnv) : List Bytes → Except Unit (List ReceiptVal)
  | [] => .ok []
  | r :: rest =>
    if r.isEmpty then deserAssumptions env rest
    else
      match env.deserialize r with
      | none => .error ()
      | some d =>
        match deserAssumptions env rest with
        | .error _ => .error ()
        | .ok ds => .ok (d :: ds)

/-- Rust `Prover::handle_message` on `RunSession(task)`: resolve the image,
input and assumption receipts, deserialize the assumptions, build the
executor environment, prove, serialize the result; on success it returns
the two store writes it performs (receipt first, then the `Succeeded`
status), in order. Every failure (`?`) happens before any write. -/
def handle_message (env : ProverEnv) (s : BonsaiState) (t : Task) :
    Except Unit (List StoreOp) :=
  match s.get_image t.image_id with
  | none => .error ()
  | some image =>
    match s.get_input t.input_id with
    | none => .error ()
    | some input =>
      match getReceipts s t.assumptions with
      | .error _ => .error ()
      | .ok receipts =>
        match deserAssumptions env receipts with
        | .error _ => .error ()
        | .ok assum =>
          if env.build_ok input assum then
            match env.prove image input assum with
            | none => .error ()
            | some info =>
              match env.serialize info.receipt with
              | none => .error ()
              | some receipt_bytes =>
                .ok [.putReceiptOp t.session_id receipt_bytes,
                     .putSessionOp t.session_id .Succeeded (some info.stats)]
          else .error ()

/-- One iteration of `Prover::run` for one dequeued message: on a
`handle_message` error the worker writes `Failed` with no statistics;
these are the writes that iteration performs. -/
def runOneOps (env : ProverEnv) (s : BonsaiState) (t : Task) : List StoreOp :=
  match handle_message env s t with
  | .ok ops => ops
  | .error _ => [.putSessionOp t.session_id .Failed none]

/-- Rust `Prover::run` over a queue of tasks: each task is processed to
completion (success or failure) and the loop proceeds to the next; a
task failure never stops the loop. -/
def run (env : ProverEnv) (now : Nat) (s : BonsaiState) : List Task → BonsaiState
  | [] => s
  | t :: ts => run env now (applyOps now s (runOneOps env s t)) ts

/-- The store write performed by the `create_session` handler
(`routes.rs`): the fresh session is stored as `Running` with no stats. -/
def create_session_op (session_id : String) : StoreOp :=
  .putSessionOp session_id .Running none

/-- The session-status values observed at each state of a trace. -/
def statusTrace (session_id : String) (states : List BonsaiState) :
    List (Option SessionStatus) :=
  states.map (fun s => (s.get_session session_id).map (·.1))

/-- The session-status values a sequence of writes stores under a given
session ID, in order. -/
def sessionWrites (session_id : String) (ops : List StoreOp) : List SessionStatus :=
  ops.filterMap fun op =>
    match op with
    | .putSessionOp id st _ => if id = session_id then some st else none
    | _ => none

/-! ## Bounded task queue (`ProverHandle::execute`) -/

/-- The state of the bounded mpsc channel between handlers and worker. -/
structure ProverQueue where
  buf : List Task
  capacity : Nat
  closed : Bool
deriving DecidableEq, Repr

/-- Outcome of `tokio::time::timeout(timeout_duration, sender.send(msg))`. -/
inductive SendOutcome where
  | delivered
  | receiverDropped
  | elapsed
deriving DecidableEq, Repr

/-- Modelled from the spec: the bounded channel send wrapped in a timeout
(the `tokio::sync::mpsc` / `tokio::time` library code, external to this
repository). If the worker side has terminated the send fails at once;
if the queue has space the task is accepted; if the queue is full and
the worker frees a slot within the timeout (`spaceFrees`) the task is
accepted after that slot opens; otherwise the timeout elapses with the
queue unchanged. -/
def channelSend (q : ProverQueue) (msg : Task) (spaceFrees : Bool) :
    SendOutcome × ProverQueue :=
  if q.closed then (.receiverDropped, q)
  else if q.buf.length < q.capacity then
    (.delivered, { q with buf := q.buf ++ [msg] })
  else if spaceFrees then
    (.delivered, { q with buf := q.buf.tail ++ [msg] })
  else (.elapsed, q)

/-- Rust `ProverHandle::execute`: the match on the send-with-timeout result in
`prover.rs` — `Ok(Ok(_))` maps to success, `Ok(Err(_))` (receiver
dropped) to `Error::Unspecified`, `Err(_)` (timeout elapsed) to
`Error::ProverQueueFull`. -/
def ProverHandle.execute (q : ProverQueue) (task : Task) (spaceFrees : Bool) :
    Except Error Unit × ProverQueue :=
  match channelSend q task spaceFrees with
  | (.delivered, q2) => (.ok (), q2)
  | (.receiverDropped, q2) => (.error .Unspecified, q2)
  | (.elapsed, q2) => (.error .ProverQueueFull, q2)

/-! ## URL resolver (`url_resolver.rs`) -/

/-- Rust `str::split(c)`: always yields at least one piece, keeps empty
pieces. -/
def splitOnChar (c : Char) : Str → List Str
  | [] => [[]]
  | x :: xs =>
    if x = c then [] :: splitOnChar c xs
    else
      match splitOnChar c xs with
      | [] => [[x]]
      | y :: ys => (x :: y) :: ys

/-- Drop the characters satisfying `p` from both ends. -/
def trimChars (p : Char → Bool) (s : Str) : Str :=
  ((s.dropWhile p).reverse.dropWhile p).reverse

/-- Rust `str::trim`. -/
def trimStr (s : Str) : Str := trimChars Char.isWhitespace s

/-- Rust `str::trim_matches('"')`. -/
def trimQuotes (s : Str) : Str := trimChars (fun ch => ch = '"') s

/-- Rust `str::strip_prefix(key)` as an `Option`. -/
def dropKey (key : Str) (s : Str) : Option Str :=
  match key.isPrefixOf s with
  | true => some (s.drop key.length)
  | false => none

/-- The first comma-separated value, trimmed (`split(',').next()` then
`trim()`; `split` on any string yields at least one piece). -/
def firstCsv (s : Str) : Str := trimStr ((splitOnChar ',' s).headD [])

/-- A parsed absolute URL: scheme plus authority (host, possibly with
port). -/
structure Url where
  scheme : Str
  host : Str
deriving DecidableEq, Repr

/-- Find the first `"://"` and split the string there. -/
def splitScheme : Str → Option (Str × Str)
  | ':' :: '/' :: '/' :: rest => some ([], rest)
  | c :: rest => (splitScheme rest).map (fun p => (c :: p.1, p.2))
  | [] => none

/-- Modelled from the spec: the external `url` crate's `Url::parse`,
which this repository calls but does not implement. A candidate is a
valid absolute URL when it has a nonempty scheme of scheme characters
before `"://"` and a nonempty host part without whitespace or `/`;
anything else is rejected (malformed candidates fall through to the
next resolver tier rather than propagating a parse error). -/
def Url.parse (s : Str) : Option Url :=
  match splitScheme s with
  | none => none
  | some (sch, rest) =>
    if !sch.isEmpty
        && sch.all (fun ch => ch.isAlpha || ch.isDigit || ch = '+' || ch = '-' || ch = '.')
        && !rest.isEmpty
        && rest.all (fun ch => !ch.isWhitespace && ch ≠ '/')
    then some ⟨sch, rest⟩
    else none

/-- Modelled from the spec: the `url` crate's display form of such a
base URL, `scheme://host/`. -/
def Url.as_str (u : Url) : Str := u.scheme ++ "://".toList ++ u.host ++ ['/']

/-- The inbound request headers the resolver consults (axum header names
are matched case-insensitively; the map is keyed by the lowercase
names the code looks up). -/
structure HeaderMap where
  forwarded : Option Str
  x_forwarded_proto : Option Str
  x_forwarded_host : Option Str
  x_forwarded_port : Option Str
  host : Option Str

/-- The `"proto="` directive key. -/
def protoKey : Str := 'p' :: 'r' :: 'o' :: 't' :: 'o' :: '=' :: []

/-- The `"host="` directive key. -/
def hostKey : Str := 'h' :: 'o' :: 's' :: 't' :: '=' :: []

/-- The directive loop of `extract_from_forwarded_header`: over the
`;`-separated directives of one entry, record the last `proto=` and
`host=` values seen, quotes stripped. -/
def parseDirectives : List Str → Option Str × Option Str → Option Str × Option Str
  | [], acc => acc
  | d :: rest, acc =>
    let trimmed := trimStr d
    match dropKey protoKey trimmed with
    | some p => parseDirectives rest (some (trimQuotes p), acc.2)
    | none =>
      match dropKey hostKey trimmed with
      | some h => parseDirectives rest (acc.1, some (trimQuotes h))
      | none => parseDirectives rest acc

/-- The body of `extract_from_forwarded_header` on the header's string
value: split on `,`, take the first entry, extract `proto=` and `host=`
from it, and build `proto://host` only when both are present. -/
def extractFromForwardedValue (s : Str) : Option Url :=
  match parseDirectives (splitOnChar ';' ((splitOnChar ',' s).headD [])) (none, none) with
  | (some proto, some host) => Url.parse (proto ++ "://".toList ++ host)
  | _ => none

/-- Rust `ServerUrlResolver::extract_from_forwarded_header`. -/
def extract_from_forwarded_header (headers : HeaderMap) : Option Url :=
  headers.forwarded.bind extractFromForwardedValue

/-- Rust `ServerUrlResolver::extract_from_x_forwarded_headers`. -/
def extract_from_x_forwarded_headers (headers : HeaderMap) : Option Url :=
  let proto := (headers.x_forwarded_proto.map firstCsv).getD "http".toList
  match headers.x_forwarded_host.map firstCsv with
  | none => none
  | some host =>
    match headers.x_forwarded_port.map firstCsv with
    | some port => Url.parse (proto ++ "://".toList ++ host ++ [':'] ++ port)
    | none => Url.parse (proto ++ "://".toList ++ host)

/-- Rust `ServerUrlResolver::extract_from_host_header`. -/
def extract_from_host_header (headers : HeaderMap) : Option Url :=
  headers.host.bind (fun host =>
    let scheme :=
      if (":443".toList).isSuffixOf host then "https".toList
      else if headers.x_forwarded_proto.map firstCsv = some "https".toList then
        "https".toList
      else "http".toList
    Url.parse (scheme ++ "://".toList ++ host))

/-- Rust `ServerUrlError` from `url_resolver.rs`. -/
inductive ServerUrlError where
  | UnableToResolve
deriving DecidableEq, Repr

/-- Rust `ServerUrlResolver`: an optional administrator-fixed URL. -/
structure ServerUrlResolver where
  fixed_url : Option Url

/-- Rust `ServerUrlResolver::resolve`: fixed URL, then the `Forwarded` header,
then the `X-Forwarded-*` headers, then the `Host` header; otherwise
`UnableToResolve`. -/
def ServerUrlResolver.resolve (r : ServerUrlResolver) (headers : HeaderMap) :
    Except ServerUrlError Url :=
  match r.fixed_url with
  | some url => .ok url
  | none =>
    match extract_from_forwarded_header headers with
    | some url => .ok url
    | none =>
      match extract_from_x_forwarded_headers headers with
      | some url => .ok url
      | none =>
        match extract_from_host_header headers with
        | some url => .ok url
        | none => .error .UnableToResolve

/-! ## Route handlers (`routes.rs`) -/

/-- Rust `str::trim_end_matches('/')`. -/
def trimEndSlashes (s : Str) : Str := (s.reverse.dropWhile (fun ch => ch = '/')).reverse

/-- The receipt link both status handlers build:
`format!("{}/receipts/{}", base_url.as_str().trim_end_matches('/'), id)`. -/
def receiptUrl (base : Url) (id : String) : Str :=
  trimEndSlashes base.as_str ++ "/receipts/".toList ++ id.toList

/-- The fields of `SessionStatusRes` the handler computes (the always-
`None` fields are omitted). -/
structure SessionStatusRes where
  status : String
  receipt_url : Option Str
  stats : Option SessionStats
deriving DecidableEq, Repr

/-- Rust `routes::session_status`: errors when the session is unknown;
otherwise reports the stored status, and the receipt link plus the
stored statistics only in the receipt-present branch (the no-receipt
branch answers `stats: None` even when the record holds statistics). -/
def session_status (resolver : ServerUrlResolver) (s : BonsaiState)
    (session_id : String) (headers : HeaderMap) : Except Error SessionStatusRes :=
  match s.get_session session_id with
  | none => .error .Unspecified
  | some (status, stats0) =>
    match s.get_receipt session_id with
    | some _ =>
      match resolver.resolve headers with
      | .error _ => .error .ServerUrlResolution
      | .ok base =>
        .ok ⟨status.to_string, some (receiptUrl base session_id), stats0⟩
    | none => .ok ⟨status.to_string, none, none⟩

/-- The fields of `SnarkStatusRes` the handler computes. -/
structure SnarkStatusRes where
  status : String
  output : Option Str
deriving DecidableEq, Repr

/-- Rust `routes::snark_status`: errors when no session entry exists for the
ID; with a stored receipt, deserializes it (a codec failure propagates
as an error), resolves the base URL and reports `SUCCEEDED` with the
receipt link; with no stored receipt reports `RUNNING`. -/
def snark_status (resolver : ServerUrlResolver) (deser : Bytes → Option ReceiptVal)
    (s : BonsaiState) (snark_id : String) (headers : HeaderMap) :
    Except Error SnarkStatusRes :=
  match s.get_session snark_id with
  | none => .error .Unspecified
  | some _ =>
    match s.get_receipt snark_id with
    | some bytes =>
      match deser bytes with
      | none => .error .Unspecified
      | some _ =>
        match resolver.resolve headers with
        | .error _ => .error .ServerUrlResolution
        | .ok base =>
          .ok ⟨SessionStatus.Succeeded.to_string, some (receiptUrl base snark_id)⟩
    | none => .ok ⟨SessionStatus.Running.to_string, none⟩

/-- Rust `routes::put_receipt`: the client-initiated direct receipt upload,
not gated by any session state. -/
def put_receipt_route (s : BonsaiState) (now : Nat) (receipt_id : String)
    (body : Bytes) : BonsaiState :=
  (s.put_receipt now receipt_id body).2

/-! ## Helper lemmas -/

theorem StoreMap.insert_self {α : Type} (m : StoreMap α) (k : String)
    (e : EntryWithTimestamp α) : (m.insert k e).2 k = some e := by
  simp [StoreMap.insert]

theorem StoreMap.insert_other {α : Type} (m : StoreMap α) (k k2 : String)
    (e : EntryWithTimestamp α) (h : k2 ≠ k) : (m.insert k e).2 k2 = m k2 := by
  simp [StoreMap.insert, h]

theorem StoreMap.retain_spec {α : Type} (m : StoreMap α) (now ttl : Nat)
    (k : String) (e : EntryWithTimestamp α) :
    m.retain (fun x => ! x.is_expired now ttl) k = some e
      ↔ (m k = some e ∧ now - e.created_at ≤ ttl) := by
  unfold StoreMap.retain
  cases hm : m k with
  | none => simp [Option.filter]
  | some a =>
    simp only [Option.filter, EntryWithTimestamp.is_expired]
    constructor
    · intro h
      split at h
      · rename_i hb
        cases h
        simp only [Bool.not_eq_true', decide_eq_false_iff_not, not_lt] at hb
        exact ⟨rfl, hb⟩
      · cases h
    · rintro ⟨he, hle⟩
      cases he
      simp [Nat.not_lt.mpr hle]

/-! ## Claim theorems -/

/-- C3: `cleanup_expired` removes, in each of the four collections,
exactly the entries whose elapsed age strictly exceeds the TTL
(`is_expired`), and keeps every entry of age at most the TTL unchanged
(value and timestamp); it is a total state transformer that touches
nothing else. -/
theorem cleanup_expired_correct (s : BonsaiState) (now : Nat) (k : String) :
    (∀ e, (s.cleanup_expired now).images k = some e
        ↔ (s.images k = some e ∧ now - e.created_at ≤ s.ttl))
    ∧ (∀ e, (s.cleanup_expired now).inputs k = some e
        ↔ (s.inputs k = some e ∧ now - e.created_at ≤ s.ttl))
    ∧ (∀ e, (s.cleanup_expired now).sessions k = some e
        ↔ (s.sessions k = some e ∧ now - e.created_at ≤ s.ttl))
    ∧ (∀ e, (s.cleanup_expired now).receipts k = some e
        ↔ (s.receipts k = some e ∧ now - e.created_at ≤ s.ttl))
    ∧ (s.cleanup_expired now).url = s.url
    ∧ (s.cleanup_expired now).ttl = s.ttl :=
  ⟨fun e => StoreMap.retain_spec s.images now s.ttl k e,
   fun e => StoreMap.retain_spec s.inputs now s.ttl k e,
   fun e => StoreMap.retain_spec s.sessions now s.ttl k e,
   fun e => StoreMap.retain_spec s.receipts now s.ttl k e,
   rfl, rfl⟩

/-- Witness for C3 at a concrete store: an entry of age `2 ≤ ttl = 3`
survives the sweep unchanged. -/
theorem cleanup_expired_correct_witness :
    (((BonsaiState.new "u" 3).put_image 0 "a" [1]).2.cleanup_expired 2).images "a"
      = some ⟨[1], 0⟩ :=
  ((cleanup_expired_correct ((BonsaiState.new "u" 3).put_image 0 "a" [1]).2 2 "a").1
    ⟨[1], 0⟩).mpr ⟨by decide, by decide⟩

/-- C4: for each of the four artifact kinds, `put` returns the previous
stored value when the ID was present and absent otherwise, replaces the
entry with the new value stamped at the insertion instant, leaves every
other ID untouched, and a subsequent `get` returns the new value; `get`
on a never-inserted ID (fresh store) is absent. -/
theorem put_get_semantics (s : BonsaiState) (now : Nat) (id : String)
    (v : Bytes) (st : SessionStatus) (stats : Option SessionStats)
    (url : String) (ttl : Nat) :
    ((s.put_image now id v).1 = (s.images id).map (·.data)
      ∧ (s.put_input now id v).1 = (s.inputs id).map (·.data)
      ∧ (s.put_session now id st stats).1 = (s.sessions id).map (·.data)
      ∧ (s.put_receipt now id v).1 = (s.receipts id).map (·.data))
    ∧ ((s.put_image now id v).2.images id = some ⟨v, now⟩
      ∧ (s.put_input now id v).2.inputs id = some ⟨v, now⟩
      ∧ (s.put_session now id st stats).2.sessions id = some ⟨(st, stats), now⟩
      ∧ (s.put_receipt now id v).2.receipts id = some ⟨v, now⟩)
    ∧ ((s.put_image now id v).2.get_image id = some v
      ∧ (s.put_input now id v).2.get_input id = some v
      ∧ (s.put_session now id st stats).2.get_session id = some (st, stats)
      ∧ (s.put_receipt now id v).2.get_receipt id = some v)
    ∧ (∀ k, k ≠ id →
        (s.put_image now id v).2.images k = s.images k
        ∧ (s.put_input now id v).2.inputs k = s.inputs k
        ∧ (s.put_session now id st stats).2.sessions k = s.sessions k
        ∧ (s.put_receipt now id v).2.receipts k = s.receipts k)
    ∧ ((BonsaiState.new url ttl).get_image id = none
      ∧ (BonsaiState.new url ttl).get_input id = none
      ∧ (BonsaiState.new url ttl).get_session id = none
      ∧ (BonsaiState.new url ttl).get_receipt id = none) := by
  refine ⟨⟨rfl, rfl, rfl, rfl⟩, ?_, ?_, ?_, ?_⟩
  · exact ⟨StoreMap.insert_self .., StoreMap.insert_self ..,
      StoreMap.insert_self .., StoreMap.insert_self ..⟩
  · constructor
    · simp [BonsaiState.put_image, BonsaiState.get_image, StoreMap.get,
        StoreMap.insert, EntryWithTimestamp.new]
    constructor
    · simp [BonsaiState.put_input, BonsaiState.get_input, StoreMap.get,
        StoreMap.insert, EntryWithTimestamp.new]
    constructor
    · simp [BonsaiState.put_session, BonsaiState.get_session, StoreMap.get,
        StoreMap.insert, EntryWithTimestamp.new]
    · simp [BonsaiState.put_receipt, BonsaiState.get_receipt, StoreMap.get,
        StoreMap.insert, EntryWithTimestamp.new]
  · intro k hk
    exact ⟨StoreMap.insert_other _ _ _ _ hk, StoreMap.insert_other _ _ _ _ hk,
      StoreMap.insert_other _ _ _ _ hk, StoreMap.insert_other _ _ _ _ hk⟩
  · exact ⟨rfl, rfl, rfl, rfl⟩

/-- Witness for C4 at a concrete store and distinct keys. -/
theorem put_get_semantics_witness :
    ("b" : String) ≠ "a"
    ∧ ((((BonsaiState.new "u" 9).put_image 0 "b" [7]).2.put_image 1 "a" [2]).2.images "b"
        = ((BonsaiState.new "u" 9).put_image 0 "b" [7]).2.images "b") :=
  ⟨by decide,
   ((put_get_semantics ((BonsaiState.new "u" 9).put_image 0 "b" [7]).2 1 "a" [2]
      .Running none "u" 9).2.2.2.1 "b" (by decide)).1⟩

theorem dropKey_isSome {key s : Str} (h : (dropKey key s).isSome) :
    key.isPrefixOf s = true := by
  cases hk : key.isPrefixOf s with
  | true => rfl
  | false => simp [dropKey, hk] at h

theorem dropKey_none {key s : Str} (h : dropKey key s = none) :
    key.isPrefixOf s = false := by
  cases hk : key.isPrefixOf s with
  | true => simp [dropKey, hk] at h
  | false => rfl

theorem proto_not_host {t : Str} (h : protoKey.isPrefixOf t = true) :
    hostKey.isPrefixOf t = false := by
  cases t with
  | nil => simp [protoKey, List.isPrefixOf] at h
  | cons c ts =>
    simp only [protoKey, List.isPrefixOf, Bool.and_eq_true, beq_iff_eq] at h
    simp [hostKey, List.isPrefixOf, ← h.1]

theorem parseDirectives_fst (l : List Str) (acc : Option Str × Option Str) :
    (parseDirectives l acc).1.isSome
      = (acc.1.isSome || l.any fun d => protoKey.isPrefixOf (trimStr d)) := by
  induction l generalizing acc with
  | nil => simp [parseDirectives]
  | cons d rest ih =>
    cases hp : dropKey protoKey (trimStr d) with
    | some p =>
      have := @dropKey_isSome protoKey (trimStr d) (by simp [hp])
      simp [parseDirectives, hp, ih, this]
    | none =>
      have hpf := dropKey_none hp
      cases hh : dropKey hostKey (trimStr d) with
      | some h => simp [parseDirectives, hp, hh, ih, hpf]
      | none => simp [parseDirectives, hp, hh, ih, hpf]

theorem parseDirectives_snd (l : List Str) (acc : Option Str × Option Str) :
    (parseDirectives l acc).2.isSome
      = (acc.2.isSome || l.any fun d => hostKey.isPrefixOf (trimStr d)) := by
  induction l generalizing acc with
  | nil => simp [parseDirectives]
  | cons d rest ih =>
    cases hp : dropKey protoKey (trimStr d) with
    | some p =>
      have hpt := @dropKey_isSome protoKey (trimStr d) (by simp [hp])
      simp [parseDirectives, hp, ih, proto_not_host hpt]
    | none =>
      cases hh : dropKey hostKey (trimStr d) with
      | some h =>
        have := @dropKey_isSome hostKey (trimStr d) (by simp [hh])
        simp [parseDirectives, hp, hh, ih, this]
      | none =>
        have := dropKey_none hh
        simp [parseDirectives, hp, hh, ih, this]

theorem splitOnChar_of_not_mem (c : Char) (v : Str) (h : c ∉ v) :
    splitOnChar c v = [v] := by
  induction v with
  | nil => rfl
  | cons x xs ih =>
    have hx : ¬ x = c := fun he => h (he ▸ List.mem_cons_self x xs)
    have hxs : c ∉ xs := fun hm => h (List.mem_cons_of_mem x hm)
    simp [splitOnChar, hx, ih hxs]

theorem splitOnChar_append (c : Char) (v w : Str) (h : c ∉ v) :
    splitOnChar c (v ++ c :: w) = v :: splitOnChar c w := by
  induction v with
  | nil => simp [splitOnChar]
  | cons x xs ih =>
    have hx : ¬ x = c := fun he => h (he ▸ List.mem_cons_self x xs)
    have hxs : c ∉ xs := fun hm => h (List.mem_cons_of_mem x hm)
    simp [splitOnChar, hx, ih hxs]

/-- C7: with a fixed URL configured, `resolve` returns exactly that URL
for every header map, so the outcome is independent of all `Forwarded`,
`X-Forwarded-*` and `Host` header values. -/
theorem resolve_fixed_url (u : Url) (headers : HeaderMap) :
    ServerUrlResolver.resolve ⟨some u⟩ headers = .ok u := rfl

/-- C8: the `Forwarded` tier considers only the first comma-separated
entry (prepending that entry to any further entries changes nothing); it
yields a URL only when both `proto=` and `host=` directives occur in
that first entry; and the concrete value
`"proto=https;host=original.com, proto=http;host=proxy1.com"` resolves
to `https://original.com/`. -/
theorem forwarded_first_entry_only :
    (extract_from_forwarded_header
        ⟨some ("proto=https;host=original.com, proto=http;host=proxy1.com").toList,
          none, none, none, none⟩
      = some ⟨"https".toList, "original.com".toList⟩)
    ∧ ((Url.mk "https".toList "original.com".toList).as_str
        = ("https://original.com/").toList)
    ∧ (ServerUrlResolver.resolve ⟨none⟩
        ⟨some ("proto=https;host=original.com, proto=http;host=proxy1.com").toList,
          none, none, none, none⟩
      = .ok ⟨"https".toList, "original.com".toList⟩)
    ∧ (∀ v w : Str, ',' ∉ v →
        extractFromForwardedValue (v ++ ',' :: w) = extractFromForwardedValue v)
    ∧ (∀ v : Str, ∀ u : Url, extractFromForwardedValue v = some u →
        ((splitOnChar ';' ((splitOnChar ',' v).headD [])).any
            fun d => protoKey.isPrefixOf (trimStr d))
        ∧ ((splitOnChar ';' ((splitOnChar ',' v).headD [])).any
            fun d => hostKey.isPrefixOf (trimStr d))) := by
  refine ⟨by decide, by decide, by rfl, ?_, ?_⟩
  · intro v w h
    unfold extractFromForwardedValue
    rw [splitOnChar_append ',' v w h, splitOnChar_of_not_mem ',' v h]
    rfl
  · intro v u h
    unfold extractFromForwardedValue at h
    rcases hpd : parseDirectives (splitOnChar ';' ((splitOnChar ',' v).headD []))
        (none, none) with ⟨fst, snd⟩
    have h1 := parseDirectives_fst (splitOnChar ';' ((splitOnChar ',' v).headD []))
        (none, none)
    have h2 := parseDirectives_snd (splitOnChar ';' ((splitOnChar ',' v).headD []))
        (none, none)
    rw [hpd] at h h1 h2
    cases fst with
    | none => cases h
    | some p =>
      cases snd with
      | none => cases h
      | some q =>
        simp only [Option.isSome_some, Option.isSome_none, Bool.false_or] at h1 h2
        exact ⟨h1.symm, h2.symm⟩

/-- Witness for C8: prepending a first entry without a comma masks a
second entry. -/
theorem forwarded_first_entry_only_witness :
    extractFromForwardedValue
        (("proto=https;host=a.com").toList ++ ',' :: ("junk").toList)
      = extractFromForwardedValue ("proto=https;host=a.com").toList :=
  forwarded_first_entry_only.2.2.2.1 ("proto=https;host=a.com").toList
    ("junk").toList (by decide)

/-- C6: `execute` returns success exactly when the task is accepted onto
the bounded queue (immediately when there is space, or after the worker
frees a slot within the timeout), appending it exactly once; it returns
`ProverQueueFull` when the queue stays full for the whole timeout, and
the distinct fatal `Unspecified` error when the worker side has
terminated; no other outcome exists, and a non-success leaves the queue
unchanged. -/
theorem execute_queue_semantics (q : ProverQueue) (t : Task) (f : Bool) :
    (q.closed = true →
      ProverHandle.execute q t f = (.error .Unspecified, q))
    ∧ (q.closed = false → q.buf.length < q.capacity →
      ProverHandle.execute q t f = (.ok (), { q with buf := q.buf ++ [t] }))
    ∧ (q.closed = false → ¬ q.buf.length < q.capacity → f = false →
      ProverHandle.execute q t f = (.error .ProverQueueFull, q))
    ∧ (q.closed = false → ¬ q.buf.length < q.capacity → f = true →
      ProverHandle.execute q t f = (.ok (), { q with buf := q.buf.tail ++ [t] }))
    ∧ ((ProverHandle.execute q t f).1 = .ok ()
      ∨ (ProverHandle.execute q t f).1 = .error .Unspecified
      ∨ (ProverHandle.execute q t f).1 = .error .ProverQueueFull)
    ∧ ((ProverHandle.execute q t f).1 = .ok () →
      ∃ pre, (ProverHandle.execute q t f).2.buf = pre ++ [t])
    ∧ ((ProverHandle.execute q t f).1 ≠ .ok () →
      (ProverHandle.execute q t f).2 = q) := by
  unfold ProverHandle.execute channelSend
  rcases q with ⟨buf, cap, closed⟩
  cases closed with
  | true =>
    refine ⟨fun _ => rfl, ?_, ?_, ?_, ?_, ?_, ?_⟩ <;> simp
  | false =>
    by_cases hlt : buf.length < cap
    · refine ⟨by simp, fun _ _ => by simp [hlt], ?_, ?_, ?_, ?_, ?_⟩ <;>
        simp [hlt]
    · cases f with
      | false =>
        refine ⟨by simp, fun _ h => absurd h hlt, fun _ _ _ => by simp [hlt], ?_, ?_, ?_, ?_⟩ <;>
          simp [hlt]
      | true =>
        refine ⟨by simp, fun _ h => absurd h hlt, ?_, fun _ _ _ => by simp [hlt], ?_, ?_, ?_⟩ <;>
          simp [hlt]

/-- Witness for C6 at a closed channel and at a full queue that stays
full. -/
theorem execute_queue_semantics_witness :
    ProverHandle.execute ⟨[], 4, true⟩ ⟨"s", "i", "p", []⟩ false
        = (.error .Unspecified, ⟨[], 4, true⟩)
    ∧ ProverHandle.execute ⟨[⟨"a", "b", "c", []⟩], 1, false⟩ ⟨"s", "i", "p", []⟩ false
        = (.error .ProverQueueFull, ⟨[⟨"a", "b", "c", []⟩], 1, false⟩) :=
  ⟨(execute_queue_semantics ⟨[], 4, true⟩ ⟨"s", "i", "p", []⟩ false).1 rfl,
   (execute_queue_semantics ⟨[⟨"a", "b", "c", []⟩], 1, false⟩ ⟨"s", "i", "p", []⟩
      false).2.2.1 rfl (by decide) rfl⟩

theorem applyOp_putSession_get_session (now : Nat) (s : BonsaiState) (id : String)
    (st : SessionStatus) (stats : Option SessionStats) :
    (applyOp now s (.putSessionOp id st stats)).get_session id = some (st, stats) := by
  simp [applyOp, BonsaiState.put_session, BonsaiState.get_session, StoreMap.get,
    StoreMap.insert, EntryWithTimestamp.new]

theorem applyOp_putSession_get_receipt (now : Nat) (s : BonsaiState) (id k : String)
    (st : SessionStatus) (stats : Option SessionStats) :
    (applyOp now s (.putSessionOp id st stats)).get_receipt k = s.get_receipt k := rfl

theorem applyOp_putReceipt_get_session (now : Nat) (s : BonsaiState) (id k : String)
    (v : Bytes) :
    (applyOp now s (.putReceiptOp id v)).get_session k = s.get_session k := rfl

theorem applyOp_putReceipt_get_receipt (now : Nat) (s : BonsaiState) (id : String)
    (v : Bytes) :
    (applyOp now s (.putReceiptOp id v)).get_receipt id = some v := by
  simp [applyOp, BonsaiState.put_receipt, BonsaiState.get_receipt, StoreMap.get,
    StoreMap.insert, EntryWithTimestamp.new]

theorem handle_message_ok_shape (env : ProverEnv) (s : BonsaiState) (t : Task)
    (ops : List StoreOp) (h : handle_message env s t = .ok ops) :
    ∃ rb stats, ops = [.putReceiptOp t.session_id rb,
      .putSessionOp t.session_id .Succeeded (some stats)] := by
  unfold handle_message at h
  repeat' split at h
  all_goals simp_all
  exact ⟨_, _, h.symm⟩

/-- C2: from its creation write onward, a session's observable status
sequence is some number of `Running` observations followed by exactly
one terminal value in `{Succeeded, Failed}`; the handler writes
`Running` once at creation, and the worker's processing of the matching
task performs exactly one session-status write, which is that terminal
value (so no write reverts a terminal status or writes a second one). -/
theorem session_lifecycle (env : ProverEnv) (s : BonsaiState) (t : Task)
    (now0 now1 : Nat) :
    ∃ n term, (term = SessionStatus.Succeeded ∨ term = SessionStatus.Failed)
      ∧ sessionWrites t.session_id
          (runOneOps env (applyOp now0 s (create_session_op t.session_id)) t)
        = [term]
      ∧ statusTrace t.session_id
          (traceStates now1 (applyOp now0 s (create_session_op t.session_id))
            (runOneOps env (applyOp now0 s (create_session_op t.session_id)) t))
        = List.replicate n (some SessionStatus.Running) ++ [some term] := by
  cases hm : handle_message env (applyOp now0 s (create_session_op t.session_id)) t with
  | error e =>
    refine ⟨1, .Failed, Or.inr rfl, ?_, ?_⟩
    · simp [runOneOps, hm, sessionWrites]
    · simp only [runOneOps, hm, traceStates, statusTrace, List.map]
      rw [applyOp_putSession_get_session, create_session_op,
        applyOp_putSession_get_session]
      rfl
  | ok ops =>
    obtain ⟨rb, stats, rfl⟩ := handle_message_ok_shape env _ t ops hm
    refine ⟨2, .Succeeded, Or.inl rfl, ?_, ?_⟩
    · simp [runOneOps, hm, sessionWrites]
    · simp only [runOneOps, hm, traceStates, statusTrace, List.map]
      rw [create_session_op, applyOp_putSession_get_session,
        applyOp_putReceipt_get_session, applyOp_putSession_get_session,
        applyOp_putSession_get_session]
      rfl

/-- An oracle environment under which proving always succeeds (receipt
`0` with statistics `⟨1, 2, 3⟩`). -/
def succeedingEnv : ProverEnv :=
  ⟨fun _ => some 0, fun r => some [r], fun _ _ => true,
   fun _ _ _ => some ⟨0, ⟨1, 2, 3⟩⟩⟩

/-- A store holding image `"i"`, input `"p"` and session `"s"` in
`Running` state, as left by the upload handlers and `create_session`. -/
def readyState : BonsaiState :=
  ((((BonsaiState.new "u" 100).put_image 0 "i" [9]).2.put_input 0 "p" []).2.put_session
    0 "s" .Running none).2

/-- The task `create_session` enqueues for that session. -/
def readyTask : Task := ⟨"s", "i", "p", []⟩

/-- C1 counterexample: processing `readyTask` succeeds, and the worker's
two writes happen under separate lock acquisitions, so the observable
state after the first write (index 1 of the trace) has a receipt stored
for session `"s"` while that session's status is still `Running`, not
`Succeeded`. -/
theorem receipt_iff_succeeded_counterexample :
    runOneOps succeedingEnv readyState readyTask
      = [.putReceiptOp "s" [0], .putSessionOp "s" .Succeeded (some ⟨1, 2, 3⟩)]
    ∧ ((traceStates 1 readyState (runOneOps succeedingEnv readyState readyTask))[1]?).map
        (fun st => ((st.get_receipt "s").isSome, st.get_session "s"))
      = some (true, some (.Running, none)) :=
  ⟨rfl, rfl⟩

/-- C1 as amended: once the worker's processing of a task is complete
(all its writes applied), a receipt exists for the session — assuming
none was directly uploaded under that ID beforehand — exactly when the
session's status is `Succeeded`; the equivalence holds at completion,
though not at the intermediate point between the worker's receipt write
and its status write. -/
theorem receipt_iff_succeeded_on_completion (env : ProverEnv) (s : BonsaiState)
    (t : Task) (now : Nat) (h : s.get_receipt t.session_id = none) :
    ((applyOps now s (runOneOps env s t)).get_receipt t.session_id).isSome = true
      ↔ ∃ stats, (applyOps now s (runOneOps env s t)).get_session t.session_id
          = some (SessionStatus.Succeeded, stats) := by
  cases hm : handle_message env s t with
  | error e =>
    simp only [runOneOps, hm, applyOps]
    rw [show (applyOp now s (.putSessionOp t.session_id .Failed none)).get_receipt
          t.session_id = s.get_receipt t.session_id from rfl, h]
    simp only [Option.isSome_none, applyOp_putSession_get_session]
    constructor
    · intro hc; cases hc
    · rintro ⟨stats, hc⟩; cases hc
  | ok ops =>
    obtain ⟨rb, stats, rfl⟩ := handle_message_ok_shape env s t ops hm
    simp only [runOneOps, hm, applyOps]
    rw [applyOp_putSession_get_receipt, applyOp_putReceipt_get_receipt,
      applyOp_putSession_get_session]
    simp

/-- Witness for C1's amended theorem at the concrete success scenario. -/
theorem receipt_iff_succeeded_on_completion_witness :
    ((applyOps 1 readyState (runOneOps succeedingEnv readyState readyTask)).get_receipt
        "s").isSome = true
      ↔ ∃ stats, (applyOps 1 readyState
          (runOneOps succeedingEnv readyState readyTask)).get_session "s"
        = some (SessionStatus.Succeeded, stats) :=
  receipt_iff_succeeded_on_completion succeedingEnv readyState readyTask 1 rfl

theorem getReceipts_error_of_missing (s : BonsaiState) (ids : List String)
    (a : String) (ha : a ∈ ids) (h : s.get_receipt a = none) :
    getReceipts s ids = .error () := by
  induction ids with
  | nil => cases ha
  | cons id rest ih =>
    rcases List.mem_cons.mp ha with rfl | hmem
    · simp [getReceipts, h]
    · cases hr : s.get_receipt id with
      | none => simp [getReceipts, hr]
      | some r => simp [getReceipts, hr, ih hmem]

theorem deserAssumptions_error_of_failing (env : ProverEnv) (rs : List Bytes)
    (r : Bytes) (hr : r ∈ rs) (hne : r.isEmpty = false)
    (h : env.deserialize r = none) : deserAssumptions env rs = .error () := by
  induction rs with
  | nil => cases hr
  | cons b rest ih =>
    rcases List.mem_cons.mp hr with rfl | hmem
    · simp [deserAssumptions, hne, h]
    · cases hb : b.isEmpty with
      | true => simpa [deserAssumptions, hb] using ih hmem
      | false =>
        cases hd : env.deserialize b with
        | none => simp [deserAssumptions, hb, hd]
        | some d => simp [deserAssumptions, hb, hd, ih hmem]

/-- C5: each failure mode of task processing — missing image, missing
input, missing assumption receipt, assumption-receipt deserialization
failure, executor-environment build failure, prover-engine error,
result-receipt serialization failure — makes `handle_message` fail; any
such failure makes that worker iteration write exactly `Failed` with no
statistics for the task's session, and the worker loop proceeds to the
remaining queued tasks (its iteration is total: errors are consumed
here and never returned to the submitting handler). -/
theorem worker_failure_isolated (env : ProverEnv) (s : BonsaiState) (t : Task)
    (now : Nat) (ts : List Task) :
    (s.get_image t.image_id = none → handle_message env s t = .error ())
    ∧ (s.get_input t.input_id = none → handle_message env s t = .error ())
    ∧ (∀ a, a ∈ t.assumptions → s.get_receipt a = none →
        handle_message env s t = .error ())
    ∧ (∀ rs r, getReceipts s t.assumptions = .ok rs → r ∈ rs → r.isEmpty = false →
        env.deserialize r = none → handle_message env s t = .error ())
    ∧ ((∀ i a, env.build_ok i a = false) → handle_message env s t = .error ())
    ∧ ((∀ e i a, env.prove e i a = none) → handle_message env s t = .error ())
    ∧ ((∀ r, env.serialize r = none) → handle_message env s t = .error ())
    ∧ (handle_message env s t = .error () →
        runOneOps env s t = [.putSessionOp t.session_id .Failed none]
        ∧ (applyOps now s (runOneOps env s t)).get_session t.session_id
            = some (SessionStatus.Failed, none))
    ∧ run env now s (t :: ts) = run env now (applyOps now s (runOneOps env s t)) ts := by
  refine ⟨?_, ?_, ?_, ?_, ?_, ?_, ?_, ?_, rfl⟩
  · intro h; simp [handle_message, h]
  · intro h
    cases hI : s.get_image t.image_id <;> simp [handle_message, hI, h]
  · intro a ha h
    have hr := getReceipts_error_of_missing s t.assumptions a ha h
    cases hI : s.get_image t.image_id with
    | none => simp [handle_message, hI]
    | some image =>
      cases hP : s.get_input t.input_id <;> simp [handle_message, hI, hP, hr]
  · intro rs r hrs hr hne hd
    have hds := deserAssumptions_error_of_failing env rs r hr hne hd
    cases hI : s.get_image t.image_id with
    | none => simp [handle_message, hI]
    | some image =>
      cases hP : s.get_input t.input_id <;>
        simp [handle_message, hI, hP, hrs, hds]
  · intro h
    cases hI : s.get_image t.image_id with
    | none => simp [handle_message, hI]
    | some image =>
      cases hP : s.get_input t.input_id with
      | none => simp [handle_message, hI, hP]
      | some input =>
        cases hR : getReceipts s t.assumptions with
        | error e => simp [handle_message, hI, hP, hR]
        | ok rs =>
          cases hD : deserAssumptions env rs <;>
            simp [handle_message, hI, hP, hR, hD, h]
  · intro h
    cases hI : s.get_image t.image_id with
    | none => simp [handle_message, hI]
    | some image =>
      cases hP : s.get_input t.input_id with
      | none => simp [handle_message, hI, hP]
      | some input =>
        cases hR : getReceipts s t.assumptions with
        | error e => simp [handle_message, hI, hP, hR]
        | ok rs =>
          cases hD : deserAssumptions env rs with
          | error e => simp [handle_message, hI, hP, hR, hD]
          | ok assum =>
            cases hB : env.build_ok input assum <;>
              simp [handle_message, hI, hP, hR, hD, hB, h]
  · intro h
    cases hI : s.get_image t.image_id with
    | none => simp [handle_message, hI]
    | some image =>
      cases hP : s.get_input t.input_id with
      | none => simp [handle_message, hI, hP]
      | some input =>
        cases hR : getReceipts s t.assumptions with
        | error e => simp [handle_message, hI, hP, hR]
        | ok rs =>
          cases hD : deserAssumptions env rs with
          | error e => simp [handle_message, hI, hP, hR, hD]
          | ok assum =>
            cases hB : env.build_ok input assum with
            | false => simp [handle_message, hI, hP, hR, hD, hB]
            | true =>
              cases hE : env.prove image input assum <;>
                simp [handle_message, hI, hP, hR, hD, hB, hE, h]
  · intro hm
    refine ⟨by simp [runOneOps, hm], ?_⟩
    simp only [runOneOps, hm, applyOps]
    exact applyOp_putSession_get_session now s t.session_id .Failed none

/-- Witness for C5: a task referencing a missing image fails and its
session ends `Failed` with no statistics. -/
theorem worker_failure_isolated_witness :
    handle_message succeedingEnv (BonsaiState.new "u" 100) readyTask = .error ()
    ∧ (applyOps 1 (BonsaiState.new "u" 100)
        (runOneOps succeedingEnv (BonsaiState.new "u" 100) readyTask)).get_session "s"
      = some (SessionStatus.Failed, none) := by
  have h := worker_failure_isolated succeedingEnv (BonsaiState.new "u" 100)
    readyTask 1 []
  have hfail := h.1 rfl
  exact ⟨hfail, ((h.2.2.2.2.2.2.2.1) hfail).2⟩

/-- C9 counterexample: for an ID with no session entry (here the empty
store), `snark_status` reports neither `Succeeded` nor `Running` — it
fails with an error, so an outcome other than the two claimed ones does
occur. -/
theorem snark_status_counterexample :
    snark_status ⟨none⟩ (fun _ => none) (BonsaiState.new "u" 0) "x"
        ⟨none, none, none, none, none⟩
      = .error .Unspecified := rfl

/-- C9 as amended: when a session entry exists for the ID,
`snark_status` reports `SUCCEEDED` with the receipt output URL if a
receipt is stored, deserializable, and the base URL resolves, and
`RUNNING` if no receipt is stored; but it returns an error — not
`Running` — when the session entry is absent, when a stored receipt
fails to deserialize, or when the base URL cannot be resolved. -/
theorem snark_status_characterization (resolver : ServerUrlResolver)
    (deser : Bytes → Option ReceiptVal) (s : BonsaiState) (id : String)
    (headers : HeaderMap) :
    (s.get_session id = none →
      snark_status resolver deser s id headers = .error .Unspecified)
    ∧ (∀ x, s.get_session id = some x → s.get_receipt id = none →
      snark_status resolver deser s id headers = .ok ⟨"RUNNING", none⟩)
    ∧ (∀ x b, s.get_session id = some x → s.get_receipt id = some b →
        deser b = none →
      snark_status resolver deser s id headers = .error .Unspecified)
    ∧ (∀ x b r u, s.get_session id = some x → s.get_receipt id = some b →
        deser b = some r → resolver.resolve headers = .ok u →
      snark_status resolver deser s id headers
        = .ok ⟨"SUCCEEDED", some (receiptUrl u id)⟩)
    ∧ (∀ x b r e2, s.get_session id = some x → s.get_receipt id = some b →
        deser b = some r → resolver.resolve headers = .error e2 →
      snark_status resolver deser s id headers = .error .ServerUrlResolution) := by
  refine ⟨?_, ?_, ?_, ?_, ?_⟩
  · intro h; simp [snark_status, h]
  · intro x h1 h2; simp [snark_status, h1, h2, SessionStatus.to_string]
  · intro x b h1 h2 h3; simp [snark_status, h1, h2, h3]
  · intro x b r u h1 h2 h3 h4
    simp [snark_status, h1, h2, h3, h4, SessionStatus.to_string]
  · intro x b r e2 h1 h2 h3 h4; simp [snark_status, h1, h2, h3, h4]

/-- Witness for C9's amended theorem: a running session with no stored
receipt reports `RUNNING`. -/
theorem snark_status_characterization_witness :
    snark_status ⟨none⟩ (fun _ => some 0) readyState "s"
        ⟨none, none, none, none, none⟩
      = .ok ⟨"RUNNING", none⟩ :=
  (snark_status_characterization ⟨none⟩ (fun _ => some 0) readyState "s"
    ⟨none, none, none, none, none⟩).2.1 (.Running, none) rfl rfl

/-- C10: `session_status` surfaces the stored record's statistics only
in the receipt-present branch; when no receipt is stored for the
session ID it answers with absent statistics even if the stored session
record holds statistics. -/
theorem session_stats_only_with_receipt (resolver : ServerUrlResolver)
    (s : BonsaiState) (sid : String) (headers : HeaderMap) (st : SessionStatus)
    (stats : Option SessionStats) :
    (s.get_session sid = some (st, stats) → s.get_receipt sid = none →
      session_status resolver s sid headers = .ok ⟨st.to_string, none, none⟩)
    ∧ (∀ b u, s.get_session sid = some (st, stats) → s.get_receipt sid = some b →
        resolver.resolve headers = .ok u →
      session_status resolver s sid headers
        = .ok ⟨st.to_string, some (receiptUrl u sid), stats⟩) := by
  constructor
  · intro h1 h2; simp [session_status, h1, h2]
  · intro b u h1 h2 h3; simp [session_status, h1, h2, h3]

/-- Witness for C10: a `Succeeded` record holding statistics but with no
stored receipt is reported with absent statistics. -/
theorem session_stats_only_with_receipt_witness :
    session_status ⟨none⟩
        ((BonsaiState.new "u" 9).put_session 0 "s" .Succeeded (some ⟨1, 2, 3⟩)).2
        "s" ⟨none, none, none, none, none⟩
      = .ok ⟨"SUCCEEDED", none, none⟩ :=
  (session_stats_only_with_receipt ⟨none⟩
    ((BonsaiState.new "u" 9).put_session 0 "s" .Succeeded (some ⟨1, 2, 3⟩)).2
    "s" ⟨none, none, none, none, none⟩ .Succeeded (some ⟨1, 2, 3⟩)).1 rfl rfl

end Bonsai
